import Mathlib

/-!
Verification development for the pySnapCollate repository.

The definitions below are shallow embeddings of the snapshot locator,
exporter, cycle driver and daemon registry found in
`src/pySnapCollate/core.py` and
`src/pySnapCollate/scripts/export_from_pencil_snapshot.py`.
Filesystem state is made explicit: the set of exported artifact files in
the working directory is a `List String`, per-rank snapshot shards are
`(proc directory, filename)` pairs, and the external PENCIL reader is a
parameter `String → Option Snapshot`.
-/

namespace PySnapCollate

/-! ### Natural sorting (`natsorted` from the `natsort` package)

`natsorted` sorts strings by a key that splits each string into maximal
runs of digit and non-digit characters; digit runs are compared as
numbers, other runs as strings, and keys always alternate
string-chunk/number-chunk starting with a (possibly empty) string chunk,
exactly as `natsort` builds its key tuples. -/

/-- Group a character list into maximal runs of digits and non-digits. -/
def rawChunks (cs : List Char) : List (List Char) :=
  cs.foldr
    (fun c ks =>
      match ks with
      | [] => [[c]]
      | run :: rest =>
        match run with
        | [] => [c] :: rest
        | d :: _ => if c.isDigit == d.isDigit then (c :: run) :: rest else [c] :: run :: rest)
    []

/-- Numeric value of a run of digit characters (leading zeros allowed). -/
def digitsToNat (run : List Char) : Nat :=
  run.foldl (fun n c => n * 10 + (c.toNat - 48)) 0

/-- One chunk of a natural-sort key: a text run (kept as its character
list, compared by code points exactly as Python compares `str`) or a
numeric run. -/
def toKeyChunk (run : List Char) : Lex (List Char ⊕ Nat) :=
  match run with
  | [] => toLex (Sum.inl [])
  | d :: _ =>
    if d.isDigit then toLex (Sum.inr (digitsToNat run)) else toLex (Sum.inl run)

/-- The natural-sort key of a string: alternating text/number chunks,
starting with a (possibly empty) text chunk, as `natsort` produces. -/
def natKey (s : String) : List (Lex (List Char ⊕ Nat)) :=
  let ks := (rawChunks s.data).map toKeyChunk
  match ks with
  | k :: rest =>
    match ofLex k with
    | Sum.inr _ => toLex (Sum.inl []) :: k :: rest
    | Sum.inl _ => k :: rest
  | [] => []

/-- Natural-sort comparison: key of `a` is at most key of `b` in the
lexicographic order on chunk lists. -/
def natLE (a b : String) : Prop := natKey a ≤ natKey b

instance : DecidableRel natLE := fun a b =>
  inferInstanceAs (Decidable (natKey a ≤ natKey b))

instance : IsTrans String natLE := ⟨fun _ _ _ hab hbc => le_trans hab hbc⟩

instance : IsTotal String natLE := ⟨fun a b => le_total (natKey a) (natKey b)⟩

/-- `natsorted` from the `natsort` package: a stable sort by `natKey`. -/
def natsorted (l : List String) : List String := l.insertionSort natLE

/-! ### Snapshot locator (`core.py`, `export`, lines 121-144)

Auto-discovery globs `data/proc0/VAR*` under the source directory; the
resulting basenames are the `varfiles` argument below.  The working
directory's exported artifact files are the `artifacts` argument; the
glob `exported__<varname>__<varfile>.*` succeeds when some artifact
starts with that stem followed by a dot. -/

/-- Stem of every artifact exported for `(varname, varfile)`, dot included:
`exported__<varname>__<varfile>.` -/
def artifactStem (varname varfile : String) : String :=
  "exported__" ++ varname ++ "__" ++ varfile ++ "."

/-- Does `artifact` match the glob `exported__<varname>__<varfile>.*`? -/
def artifactMatches (varname varfile artifact : String) : Bool :=
  (artifactStem varname varfile).data.isPrefixOf artifact.data

/-- `len(glob('exported__<varname>__<varfile>.*')) > 0` over the working
directory contents `artifacts`. -/
def artifactExistsFor (artifacts : List String) (varname varfile : String) : Bool :=
  artifacts.any (artifactMatches varname varfile)

/-- Loop body flag `varfile_still_needed`: true when at least one
requested variable has no exported artifact for this snapshot. -/
def varfileStillNeeded (artifacts varnames : List String) (varfile : String) : Bool :=
  varnames.any (fun varname => !(artifactExistsFor artifacts varname varfile))

/-- `needed_varfiles`: discovered snapshots that still need processing. -/
def neededVarfiles (artifacts varnames varfiles : List String) : List String :=
  varfiles.filter (varfileStillNeeded artifacts varnames)

/-- The locator: filter the discovered snapshot basenames against
existing artifacts, natural-sort them, and in bounded-batch mode keep
only the first `batchSize` (`varfiles = varfiles[:args.batch_size]`). -/
def locateVarfiles (artifacts varnames varfiles : List String)
    (oneBatchAtATime : Bool) (batchSize : Nat) : List String :=
  let sorted := natsorted (neededVarfiles artifacts varnames varfiles)
  if oneBatchAtATime then sorted.take batchSize else sorted

/-! ### Exporter (`core.py`, `export_pencil`, lines 32-70)

The PENCIL reader is modelled as `String → Option Snapshot`: `none` when
`pc.read_var`/`pc.read_pvar` raises, otherwise the loaded snapshot
object whose public attributes are an association list of field values.
A field value is a scalar (shape `()`, written to a `.txt` file) or an
array (written to a `.npy` file); the stored numbers are irrelevant to
the claims and kept as integers. -/

/-- A field stored in a snapshot: scalar or array. -/
inductive FieldVal where
  | scalar : Int → FieldVal
  | array : List Int → FieldVal
deriving DecidableEq

/-- A loaded snapshot object: its public attributes. -/
structure Snapshot where
  fields : List (String × FieldVal)
deriving DecidableEq

/-- `getattr(d, varname)`: `none` models the `AttributeError` branch. -/
def Snapshot.getField (d : Snapshot) (varname : String) : Option FieldVal :=
  (d.fields.find? (fun p => p.fst == varname)).map Prod.snd

/-- Filename written for one field: `.txt` for a scalar
(`np.savetxt`), `.npy` for an array (`np.save`). -/
def artifactName (varname varfile : String) (v : FieldVal) : String :=
  match v with
  | .scalar _ => artifactStem varname varfile ++ "txt"
  | .array _ => artifactStem varname varfile ++ "npy"

/-- Result of one `export_pencil` call: the returned status code, the
artifact files written to the working directory, and the messages
printed. -/
structure ExportResult where
  status : Nat
  written : List String
  messages : List String
deriving DecidableEq

/-- `export_pencil`: load the snapshot via the reader; on failure print
and return 1; otherwise write each requested field that the snapshot
provides (unknown names are reported and skipped) and return 0.  With an
empty `varnames` list the available names are printed instead. -/
def export_pencil (reader : String → Option Snapshot) (varnames : List String)
    (varfile : String) : ExportResult :=
  match reader varfile with
  | none =>
    ⟨1, [], ["Error encountered while collecting data using PENCIL python scripts."]⟩
  | some d =>
    let listing :=
      if varnames.length == 0 then ["Variables stored in snapshot file " ++ varfile] else []
    let written := varnames.filterMap (fun vn => (d.getField vn).map (artifactName vn varfile))
    let unknown := varnames.filterMap (fun vn =>
      match d.getField vn with
      | none => some ("Unknown varname " ++ vn ++ " !")
      | some _ => none)
    ⟨0, written, listing ++ unknown⟩

/-- One export pass over a list of snapshots: the artifact files present
after every snapshot in `varfiles` has been run through `export_pencil`
(the per-snapshot workers are independent; only the resulting set of
files matters). -/
def exportPass (reader : String → Option Snapshot) (varnames varfiles artifacts : List String) :
    List String :=
  varfiles.foldl (fun acc vf => acc ++ (export_pencil reader varnames vf).written) artifacts

/-! ### Deleting original snapshots (`core.py`, lines 74-99 and 178-193)

A per-rank shard is a pair `(proc directory, filename)`.  The OS-level
`os.remove` is modelled as succeeding, so after
`delete_original_snapshot` every shard whose filename equals the given
snapshot name is gone and every other shard is untouched. -/

/-- `delete_original_snapshot`: remove `<proc dir>/<varfile>` for every
proc directory. -/
def delete_original_snapshot (shards : List (String × String)) (varfile : String) :
    List (String × String) :=
  shards.filter (fun sh => !(sh.snd == varfile))

/-- Deletion step of the cycle in `core.py` (lines 181-184): the
positional `zip(error_codes, varfiles)` pairing, deleting a snapshot's
originals exactly when its export returned status 0. -/
def deleteOriginalsPhase (deleteOriginals : Bool) (results : List (Nat × String))
    (shards : List (String × String)) : List (String × String) :=
  if deleteOriginals then
    results.foldl
      (fun sh r => if r.fst == 0 then delete_original_snapshot sh r.snd else sh)
      shards
  else shards

/-- The particle-snapshot loop of
`scripts/export_from_pencil_snapshot.py` (lines 175-178): after a
successful particle export it calls
`delete_original_snapshot(varfile=varfile, ...)` with the stale loop
variable `varfile` left over from the VAR loop, not the current
`pvarfile`. -/
def scriptsPvarLoop (reader : String → Option Snapshot) (pvarnames pvarfiles : List String)
    (staleVarfile : String) (deleteOriginals : Bool) (shards : List (String × String)) :
    List (String × String) :=
  pvarfiles.foldl
    (fun sh pvf =>
      if (export_pencil reader pvarnames pvf).status == 0 && deleteOriginals then
        delete_original_snapshot sh staleVarfile
      else sh)
    shards

/-! ### Cycle driver (`core.py`, `export`, lines 104-214) -/

/-- The arguments consumed by `export` (`direct` command defaults from
`cli.py`). -/
structure ExportArgs where
  varnames : List String
  varfiles : List String
  pvarnames : List String
  pvarfiles : List String
  daemon_mode : Bool
  one_batch_at_a_time : Bool
  batch_size : Nat
  delete_originals : Bool
deriving DecidableEq

/-- Argument-compatibility check at the top of `export` (lines 110-113):
explicit snapshot names turn daemon mode off. -/
def checkArgs (args : ExportArgs) : ExportArgs :=
  if args.daemon_mode && (args.varfiles.length > 0 || args.pvarfiles.length > 0) then
    { args with daemon_mode := false }
  else args

/-- Per-cycle choice of VAR snapshots (lines 121-144): an explicit list
bypasses auto-discovery, otherwise the locator runs over the discovered
`data/proc0/VAR*` basenames. -/
def selectVarfiles (args : ExportArgs) (discovered artifacts : List String) : List String :=
  if args.varfiles.length > 0 then args.varfiles
  else locateVarfiles artifacts args.varnames discovered args.one_batch_at_a_time args.batch_size

/-- Per-cycle choice of PVAR snapshots (lines 150-172), symmetric to
`selectVarfiles`. -/
def selectPvarfiles (args : ExportArgs) (discovered artifacts : List String) : List String :=
  if args.pvarfiles.length > 0 then args.pvarfiles
  else locateVarfiles artifacts args.pvarnames discovered args.one_batch_at_a_time args.batch_size

/-- The `while True:` loop of `export` (lines 118-214), abstracted over
the cycle body: run the body, then loop again only in daemon mode.
`fuel` bounds the number of iterations observed; the function returns
how many passes ran (within the fuel) and the final state. -/
def exportDriver {σ : Type} (onePass : σ → σ) (daemonMode : Bool) : Nat → σ → Nat × σ
  | 0, st => (0, st)
  | Nat.succ fuel, st =>
    let st' := onePass st
    if daemonMode then
      let r := exportDriver onePass daemonMode fuel st'
      (r.fst + 1, r.snd)
    else (1, st')

/-! ### Daemon registry: `setup_daemon` and `list_daemons`
(`core.py`, lines 218-266 and 594-619)

The registry state records whether `~/.pySnapCollate` exists, which
per-daemon subdirectories exist, and the `config.json` contents (one
serialized document per daemon name). -/

/-- State of the `~/.pySnapCollate` configuration tree. -/
structure RegistryState where
  configDirExists : Bool
  daemonDirs : List String
  configs : List (String × String)
deriving DecidableEq

/-- `setup_daemon`: create the config directory and the per-daemon
directory (both `exist_ok=True`) before anything else; then refuse with
a warning when `config.json` already exists and `--force` was not given;
otherwise write the new configuration (`writeOk = false` models the
`except` branch of the final write, which only prints).  Returns the new
state and the messages printed. -/
def setup_daemon (st : RegistryState) (name : String) (force : Bool)
    (newContents : String) (writeOk : Bool) : RegistryState × List String :=
  let st1 : RegistryState :=
    { st with
      configDirExists := true
      daemonDirs := if name ∈ st.daemonDirs then st.daemonDirs else st.daemonDirs ++ [name] }
  if (st1.configs.lookup name).isSome && !force then
    (st1,
     ["Existing configuration file found for daemon " ++ name ++
      ". Rerun with flag --force to override existing configuration."])
  else if writeOk then
    ({ st1 with
       configs := st1.configs.filter (fun p => !(p.fst == name)) ++ [(name, newContents)] },
     ["Daemon " ++ name ++ " has been set up successfully."])
  else
    (st1, ["An error occurred while setting up the daemon."])

/-- `list_daemons`: nothing when the config directory is missing,
otherwise the subdirectory names (plain files such as `defaults.json`
fail the `os.path.isdir` test and are not reported). -/
def list_daemons (st : RegistryState) : List String :=
  if st.configDirExists then st.daemonDirs else []

/-! ### Effect traces of the config-reading daemon commands
(`core.py`: `modify_daemon` 310-380, `start_daemon` 427-535,
`stop_daemon` 539-589, `inspect_daemon` 384-423)

Each command is modelled as the ordered list of externally visible
actions it performs.  The environment supplies the parsed state of
`config.json` (`ConfigRead`), the job ids of the `active_job.*` marker
files in glob order, and the outcome of each scheduler command. -/

/-- Outcome of opening and parsing `config.json`. -/
inductive ConfigRead where
  | missing : ConfigRead
  | corrupt : ConfigRead
  | ok : ConfigRead
deriving DecidableEq

/-- Externally visible actions of a daemon command. -/
inductive Eff where
  | logMissingConfig : Eff
  | logLoadError : Eff
  | logOther : Eff
  | qstat : String → Eff
  | removeMarker : String → Eff
  | writeMarker : String → Eff
  | qdel : String → Eff
  | qsub : Eff
  | writeScript : Eff
  | writeConfig : Eff
deriving DecidableEq

/-- Active-file loop of `modify_daemon` (lines 335-346): a running job
aborts the command (the `else: return` of the `try`), a stale marker is
removed and the loop continues.  Returns the effects and whether the
command aborted. -/
def modifyLoop (running : String → Bool) : List String → List Eff × Bool
  | [] => ([], false)
  | j :: rest =>
    if running j then ([Eff.qstat j, Eff.logOther], true)
    else
      let r := modifyLoop running rest
      (Eff.qstat j :: Eff.removeMarker j :: r.fst, r.snd)

/-- `modify_daemon`: missing or corrupt configuration prints and
returns; otherwise reconcile the active markers and, unless a running
job was found, rewrite `config.json`. -/
def modify_daemon (read : ConfigRead) (activeJobs : List String) (running : String → Bool) :
    List Eff :=
  match read with
  | .missing => [Eff.logMissingConfig]
  | .corrupt => [Eff.logLoadError]
  | .ok =>
    let r := modifyLoop running activeJobs
    if r.snd then r.fst else r.fst ++ [Eff.writeConfig]

/-- Active-file loop shared by `start_daemon` (lines 451-461) and
`remove_daemon`: no early return; `already_in_queue` is sticky. -/
def startCheckLoop (running : String → Bool) : List String → List Eff × Bool
  | [] => ([], false)
  | j :: rest =>
    let r := startCheckLoop running rest
    if running j then (Eff.qstat j :: Eff.logOther :: r.fst, true)
    else (Eff.qstat j :: Eff.removeMarker j :: r.fst, r.snd)

/-- `start_daemon`: a missing configuration prints and returns.  A
corrupt configuration is printed (lines 444-448) *without* a `return`,
so the active-marker check still runs; if no job is queued the function
then reads the never-assigned local `config_data`, and the resulting
`NameError` terminates the command before the run script is written or
`qsub` is invoked.  With a parsed configuration the run script is
written and submitted; `qsubResult` is the job id parsed from the
scheduler output (`none` models submission failure or an id-less
output). -/
def start_daemon (read : ConfigRead) (activeJobs : List String) (running : String → Bool)
    (qsubResult : Option String) : List Eff :=
  match read with
  | .missing => [Eff.logMissingConfig]
  | .corrupt =>
    let r := startCheckLoop running activeJobs
    if r.snd then Eff.logLoadError :: r.fst ++ [Eff.logOther]
    else Eff.logLoadError :: r.fst
  | .ok =>
    let r := startCheckLoop running activeJobs
    if r.snd then r.fst ++ [Eff.logOther]
    else
      r.fst ++ [Eff.writeScript, Eff.qsub] ++
        (match qsubResult with
         | some jid => [Eff.logOther, Eff.writeMarker jid, Eff.logOther]
         | none => [Eff.logOther])

/-- Active-file loop of `stop_daemon` (lines 563-587): `is_in_queue` is
initialized once before the loop and never reset, so once a running job
is seen every later marker is also `qdel`-ed. -/
def stopLoop (running qdelOk : String → Bool) : List String → Bool → List Eff
  | [], _ => []
  | j :: rest, inQ =>
    let first := if running j then [Eff.qstat j] else [Eff.qstat j, Eff.logOther, Eff.removeMarker j]
    let inQ' := if running j then true else inQ
    let second :=
      if inQ' then
        if qdelOk j then [Eff.qdel j, Eff.logOther, Eff.removeMarker j]
        else [Eff.qdel j, Eff.logOther]
      else [Eff.logOther]
    first ++ second ++ stopLoop running qdelOk rest inQ'

/-- `stop_daemon`: a missing configuration prints and returns; a corrupt
one is printed (lines 556-560) *without* a `return`, after which the
command proceeds exactly as with a parsed configuration: it reconciles
the markers and deletes whatever job is still queued or running. -/
def stop_daemon (read : ConfigRead) (activeJobs : List String) (running qdelOk : String → Bool) :
    List Eff :=
  match read with
  | .missing => [Eff.logMissingConfig]
  | .corrupt => Eff.logLoadError :: stopLoop running qdelOk activeJobs false
  | .ok => stopLoop running qdelOk activeJobs false

/-- Active-file loop of `inspect_daemon` (lines 412-423). -/
def inspectLoop (running : String → Bool) : List String → List Eff
  | [] => []
  | j :: rest =>
    (if running j then [Eff.qstat j, Eff.logOther]
     else [Eff.qstat j, Eff.logOther, Eff.removeMarker j]) ++ inspectLoop running rest

/-- `inspect_daemon`: a missing configuration prints and returns; a
corrupt one is printed inside the reading `try` and the command then
still reconciles the active markers (no early return). -/
def inspect_daemon (read : ConfigRead) (activeJobs : List String) (running : String → Bool) :
    List Eff :=
  match read with
  | .missing => [Eff.logMissingConfig]
  | .corrupt => Eff.logLoadError :: inspectLoop running activeJobs
  | .ok => Eff.logOther :: inspectLoop running activeJobs

/-! ### General lemmas about the embedded operations -/

theorem mem_natsorted {a : String} {l : List String} : a ∈ natsorted l ↔ a ∈ l :=
  List.mem_insertionSort natLE

theorem mem_locateVarfiles_unbatched {artifacts varnames varfiles : List String}
    {batchSize : Nat} {vf : String} :
    vf ∈ locateVarfiles artifacts varnames varfiles false batchSize ↔
      vf ∈ varfiles ∧ varfileStillNeeded artifacts varnames vf = true := by
  simp only [locateVarfiles, if_neg Bool.false_ne_true, mem_natsorted, neededVarfiles,
    List.mem_filter]

theorem varfileStillNeeded_iff {artifacts varnames : List String} {vf : String} :
    varfileStillNeeded artifacts varnames vf = true ↔
      ∃ vn ∈ varnames, artifactExistsFor artifacts vn vf = false := by
  simp only [varfileStillNeeded, List.any_eq_true, Bool.not_eq_true']

/-- The artifact `export_pencil` writes for a field always matches the
glob the locator uses for that `(field, snapshot)` pair. -/
theorem artifactMatches_artifactName (vn vf : String) (v : FieldVal) :
    artifactMatches vn vf (artifactName vn vf v) = true := by
  cases v <;>
    simp only [artifactMatches, artifactName, String.data_append,
      List.isPrefixOf_iff_prefix, List.prefix_append]

theorem mem_exportPass_left {reader : String → Option Snapshot}
    {varnames : List String} {a : String} :
    ∀ {varfiles artifacts : List String}, a ∈ artifacts →
      a ∈ exportPass reader varnames varfiles artifacts := by
  intro varfiles
  induction varfiles with
  | nil => intro artifacts h; exact h
  | cons vf rest ih =>
    intro artifacts h
    exact ih (List.mem_append_left _ h)

theorem mem_exportPass_of_written {reader : String → Option Snapshot}
    {varnames : List String} {a vf : String} :
    ∀ {varfiles artifacts : List String}, vf ∈ varfiles →
      a ∈ (export_pencil reader varnames vf).written →
      a ∈ exportPass reader varnames varfiles artifacts := by
  intro varfiles
  induction varfiles with
  | nil => intro _ h; exact absurd h (List.not_mem_nil vf)
  | cons vf' rest ih =>
    intro artifacts hmem ha
    rcases List.mem_cons.mp hmem with h | h
    · subst h
      show a ∈ exportPass reader varnames rest (artifacts ++ (export_pencil reader varnames vf).written)
      exact mem_exportPass_left (List.mem_append_right _ ha)
    · exact ih h ha

/-- A field the snapshot provides is written by `export_pencil` under
its deterministic artifact name. -/
theorem mem_written_of_getField {reader : String → Option Snapshot}
    {varnames : List String} {vf : String} {d : Snapshot} (h : reader vf = some d)
    {vn : String} (hvn : vn ∈ varnames) {v : FieldVal} (hv : d.getField vn = some v) :
    artifactName vn vf v ∈ (export_pencil reader varnames vf).written := by
  unfold export_pencil
  rw [h]
  exact List.mem_filterMap.mpr ⟨vn, hvn, by rw [hv]; rfl⟩

/-- Artifacts present before an export pass still exist afterwards, so a
satisfied glob stays satisfied. -/
theorem artifactExistsFor_exportPass {reader : String → Option Snapshot}
    {varnames varfiles artifacts : List String} {vn vf : String}
    (h : artifactExistsFor artifacts vn vf = true) :
    artifactExistsFor (exportPass reader varnames varfiles artifacts) vn vf = true := by
  obtain ⟨a, ha, hm⟩ := List.any_eq_true.mp h
  exact List.any_eq_true.mpr ⟨a, mem_exportPass_left ha, hm⟩

theorem length_filterMap_eq_length_filter {α β : Type} (f : α → Option β) :
    ∀ l : List α, (l.filterMap f).length = (l.filter (fun a => (f a).isSome)).length := by
  intro l
  induction l with
  | nil => rfl
  | cons a rest ih =>
    cases hfa : f a <;>
      simp [List.filterMap_cons, List.filter_cons, hfa, ih]

end PySnapCollate

namespace PySnapCollate

/-! ### Claim theorems -/

/-- **C1.** For every candidate snapshot found by the locator and every
non-empty requested field-name list, the candidate is excluded from the
returned set if, for every requested field name, an exported artifact
matching `exported__<field>__<snapshot>.*` already exists, and it is
retained if at least one requested field has no such artifact. -/
theorem locator_excludes_fully_exported
    (artifacts varnames varfiles : List String) (batchSize : Nat) (vf : String)
    (_hne : varnames ≠ []) (hvf : vf ∈ varfiles) :
    (vf ∉ locateVarfiles artifacts varnames varfiles false batchSize ↔
       ∀ vn ∈ varnames, artifactExistsFor artifacts vn vf = true)
    ∧ (vf ∈ locateVarfiles artifacts varnames varfiles false batchSize ↔
       ∃ vn ∈ varnames, artifactExistsFor artifacts vn vf = false) := by
  have hmem : vf ∈ locateVarfiles artifacts varnames varfiles false batchSize ↔
      ∃ vn ∈ varnames, artifactExistsFor artifacts vn vf = false := by
    rw [mem_locateVarfiles_unbatched, varfileStillNeeded_iff]
    exact ⟨fun h => h.2, fun h => ⟨hvf, h⟩⟩
  refine ⟨?_, hmem⟩
  rw [hmem]
  push_neg
  constructor
  · intro h vn hvn
    exact eq_true_of_ne_false (h vn hvn)
  · intro h vn hvn
    simp [h vn hvn]

theorem locator_excludes_fully_exported_witness :
    "VAR2" ∈ locateVarfiles ["exported__rho__VAR1.npy"] ["rho"] ["VAR1", "VAR2"] false 0
    ∧ "VAR1" ∉ locateVarfiles ["exported__rho__VAR1.npy"] ["rho"] ["VAR1", "VAR2"] false 0 :=
  ⟨((locator_excludes_fully_exported ["exported__rho__VAR1.npy"] ["rho"] ["VAR1", "VAR2"] 0
      "VAR2" (by decide) (by decide)).2).mpr (by decide),
   ((locator_excludes_fully_exported ["exported__rho__VAR1.npy"] ["rho"] ["VAR1", "VAR2"] 0
      "VAR1" (by decide) (by decide)).1).mpr (by decide)⟩

/-- **C6.** In bounded-batch mode (`one_batch_at_a_time = true`,
`batch_size = N`) the locator returns at most `N` snapshot filenames —
the first `N` retained snapshots in natural-sort order — even when more
are eligible (third conjunct: three eligible snapshots, two returned). -/
theorem locator_batch_bound (artifacts varnames varfiles : List String) (N : Nat) :
    (locateVarfiles artifacts varnames varfiles true N).length ≤ N
    ∧ locateVarfiles artifacts varnames varfiles true N
        <+: natsorted (neededVarfiles artifacts varnames varfiles)
    ∧ locateVarfiles [] ["rho"] ["VAR1", "VAR2", "VAR3"] true 2 = ["VAR1", "VAR2"] :=
  ⟨List.length_take_le N _, List.take_prefix N _, by decide⟩

/-- **C7.** The locator's returned order is natural-sort order (sorted
under `natLE`, a permutation of the retained set when unbatched), with
numeric suffixes compared numerically rather than lexicographically: the
natural order puts `VAR9` strictly before `VAR10` even though plain
code-point comparison puts `VAR10` first. -/
theorem locator_natural_sort_order
    (artifacts varnames varfiles : List String) (oneBatchAtATime : Bool) (N : Nat) :
    (locateVarfiles artifacts varnames varfiles oneBatchAtATime N).Sorted natLE
    ∧ (locateVarfiles artifacts varnames varfiles false N).Perm
        (neededVarfiles artifacts varnames varfiles)
    ∧ (natLE "VAR9" "VAR10" ∧ ¬ natLE "VAR10" "VAR9")
    ∧ "VAR10".data < "VAR9".data
    ∧ natsorted ["VAR10", "VAR9"] = ["VAR9", "VAR10"] := by
  refine ⟨?_, List.perm_insertionSort natLE _, by decide, by decide, by decide⟩
  have hsorted : (natsorted (neededVarfiles artifacts varnames varfiles)).Sorted natLE :=
    List.sorted_insertionSort natLE _
  unfold locateVarfiles
  cases oneBatchAtATime
  · simpa using hsorted
  · simpa using hsorted.sublist (List.take_sublist N _)

/-- **C3.** When an explicit snapshot file list (`varfiles` or
`pvarfiles`) is non-empty, the argument check turns daemon/loop mode off
even if it was requested, the per-cycle file selection bypasses
auto-discovery for that input, and the driver performs exactly one
pass. -/
theorem explicit_files_single_pass {σ : Type} (args : ExportArgs) (onePass : σ → σ)
    (fuel : Nat) (st : σ) (discoveredV discoveredP artifacts : List String)
    (hexp : args.varfiles ≠ [] ∨ args.pvarfiles ≠ []) (hfuel : 1 ≤ fuel) :
    (checkArgs args).daemon_mode = false
    ∧ (args.varfiles ≠ [] →
        selectVarfiles (checkArgs args) discoveredV artifacts = args.varfiles)
    ∧ (args.pvarfiles ≠ [] →
        selectPvarfiles (checkArgs args) discoveredP artifacts = args.pvarfiles)
    ∧ (exportDriver onePass (checkArgs args).daemon_mode fuel st).fst = 1 := by
  have hvf : checkArgs args = { args with daemon_mode := false } ∨ checkArgs args = args := by
    unfold checkArgs
    split
    · exact Or.inl rfl
    · exact Or.inr rfl
  have hdm : (checkArgs args).daemon_mode = false := by
    unfold checkArgs
    split
    · rfl
    · rename_i hcond
      rcases Bool.not_eq_true _ ▸ hcond with h
      cases hdaemon : args.daemon_mode
      · rfl
      · exfalso
        apply hcond
        simp only [hdaemon, Bool.true_and, Bool.or_eq_true, decide_eq_true_eq, gt_iff_lt,
          List.length_pos]
        exact hexp
  have hfields : (checkArgs args).varfiles = args.varfiles
      ∧ (checkArgs args).pvarfiles = args.pvarfiles
      ∧ (checkArgs args).varnames = args.varnames
      ∧ (checkArgs args).pvarnames = args.pvarnames := by
    rcases hvf with h | h <;> rw [h] <;> exact ⟨rfl, rfl, rfl, rfl⟩
  refine ⟨hdm, ?_, ?_, ?_⟩
  · intro h
    unfold selectVarfiles
    rw [hfields.1, if_pos (by simpa [List.length_pos] using h)]
  · intro h
    unfold selectPvarfiles
    rw [hfields.2.1, if_pos (by simpa [List.length_pos] using h)]
  · rcases Nat.exists_eq_add_of_le hfuel with ⟨k, hk⟩
    rw [Nat.add_comm] at hk
    subst hk
    rw [hdm]
    rfl

theorem explicit_files_single_pass_witness :
    (checkArgs ⟨["rho"], ["VAR1"], [], [], true, false, 1, false⟩).daemon_mode = false
    ∧ (exportDriver (fun n => n + 1) (checkArgs ⟨["rho"], ["VAR1"], [], [], true, false,
        1, false⟩).daemon_mode 5 (0 : Nat)).fst = 1 := by
  have h := explicit_files_single_pass (σ := Nat) ⟨["rho"], ["VAR1"], [], [], true, false, 1, false⟩
    (fun n => n + 1) 5 0 [] [] [] (Or.inl (by decide)) (by decide)
  exact ⟨h.1, h.2.2.2⟩

/-- **C8.** Exporting a single snapshot that the reader loads
successfully: every requested field name the snapshot does not provide
is reported and skipped, every provided field is still written (with its
deterministic artifact name), exactly the provided fields are written,
and the returned per-file status is 0. -/
theorem unknown_fields_skipped (reader : String → Option Snapshot)
    (varnames : List String) (vf : String) (d : Snapshot)
    (h : reader vf = some d) :
    (export_pencil reader varnames vf).status = 0
    ∧ (∀ vn ∈ varnames, ∀ v, d.getField vn = some v →
        artifactName vn vf v ∈ (export_pencil reader varnames vf).written)
    ∧ (∀ vn ∈ varnames, d.getField vn = none →
        ("Unknown varname " ++ vn ++ " !") ∈ (export_pencil reader varnames vf).messages)
    ∧ (export_pencil reader varnames vf).written.length
        = (varnames.filter (fun vn => (d.getField vn).isSome)).length := by
  unfold export_pencil
  rw [h]
  refine ⟨rfl, ?_, ?_, ?_⟩
  · intro vn hvn v hv
    exact List.mem_filterMap.mpr ⟨vn, hvn, by rw [hv]; rfl⟩
  · intro vn hvn hv
    exact List.mem_append_right _ (List.mem_filterMap.mpr ⟨vn, hvn, by rw [hv]⟩)
  · rw [length_filterMap_eq_length_filter]
    congr 1
    apply List.filter_congr
    intro vn _
    cases d.getField vn <;> rfl

theorem unknown_fields_skipped_witness :
    (export_pencil (fun _ => some ⟨[("rho", FieldVal.array [3, 4])]⟩)
        ["rho", "bogus"] "VAR1").status = 0
    ∧ ("Unknown varname bogus !")
        ∈ (export_pencil (fun _ => some ⟨[("rho", FieldVal.array [3, 4])]⟩)
            ["rho", "bogus"] "VAR1").messages
    ∧ "exported__rho__VAR1.npy"
        ∈ (export_pencil (fun _ => some ⟨[("rho", FieldVal.array [3, 4])]⟩)
            ["rho", "bogus"] "VAR1").written := by
  have h := unknown_fields_skipped (fun _ => some ⟨[("rho", FieldVal.array [3, 4])]⟩)
    ["rho", "bogus"] "VAR1" ⟨[("rho", FieldVal.array [3, 4])]⟩ rfl
  exact ⟨h.1, h.2.2.1 "bogus" (by decide) (by decide),
    h.2.1 "rho" (by decide) (FieldVal.array [3, 4]) (by decide)⟩

/-- **C5.** Running the export cycle twice with identical inputs is
idempotent when the reader loads every discovered snapshot and provides
every requested field: the first pass writes, for each located snapshot
and requested field, an artifact named `exported__<field>__<snapshot>`
with extension `.txt` (scalar) or `.npy` (array); afterwards the locator
returns an empty candidate set, so a second pass leaves the artifact
files identical. -/
theorem export_cycle_idempotent (reader : String → Option Snapshot)
    (artifacts varnames varfiles : List String)
    (hreader : ∀ vf ∈ varfiles, ∃ d, reader vf = some d ∧
        ∀ vn ∈ varnames, (d.getField vn).isSome = true) :
    (∀ vf ∈ locateVarfiles artifacts varnames varfiles false 0, ∀ vn ∈ varnames,
      ∀ d, reader vf = some d → ∀ v, d.getField vn = some v →
        artifactName vn vf v ∈
          exportPass reader varnames (locateVarfiles artifacts varnames varfiles false 0)
            artifacts)
    ∧ locateVarfiles
        (exportPass reader varnames (locateVarfiles artifacts varnames varfiles false 0)
          artifacts)
        varnames varfiles false 0 = []
    ∧ exportPass reader varnames
        (locateVarfiles
          (exportPass reader varnames (locateVarfiles artifacts varnames varfiles false 0)
            artifacts)
          varnames varfiles false 0)
        (exportPass reader varnames (locateVarfiles artifacts varnames varfiles false 0)
          artifacts)
      = exportPass reader varnames (locateVarfiles artifacts varnames varfiles false 0)
          artifacts := by
  have hwrite : ∀ vf ∈ locateVarfiles artifacts varnames varfiles false 0, ∀ vn ∈ varnames,
      ∀ d, reader vf = some d → ∀ v, d.getField vn = some v →
        artifactName vn vf v ∈
          exportPass reader varnames (locateVarfiles artifacts varnames varfiles false 0)
            artifacts := by
    intro vf hvf vn hvn d hd v hv
    exact mem_exportPass_of_written hvf (mem_written_of_getField hd hvn hv)
  have hempty : locateVarfiles
      (exportPass reader varnames (locateVarfiles artifacts varnames varfiles false 0) artifacts)
      varnames varfiles false 0 = [] := by
    have hneed : neededVarfiles
        (exportPass reader varnames (locateVarfiles artifacts varnames varfiles false 0)
          artifacts)
        varnames varfiles = [] := by
      rw [neededVarfiles, List.filter_eq_nil_iff]
      intro vf hvf hcontra
      rw [varfileStillNeeded_iff] at hcontra
      obtain ⟨vn, hvn, hnone⟩ := hcontra
      have hex : artifactExistsFor
          (exportPass reader varnames (locateVarfiles artifacts varnames varfiles false 0)
            artifacts) vn vf = true := by
        by_cases hc : vf ∈ locateVarfiles artifacts varnames varfiles false 0
        · obtain ⟨d, hd, hall⟩ := hreader vf hvf
          obtain ⟨v, hv⟩ := Option.isSome_iff_exists.mp (hall vn hvn)
          exact List.any_eq_true.mpr
            ⟨artifactName vn vf v, hwrite vf hc vn hvn d hd v hv,
              artifactMatches_artifactName vn vf v⟩
        · have hsn : varfileStillNeeded artifacts varnames vf = false := by
            cases hsn : varfileStillNeeded artifacts varnames vf
            · rfl
            · exact absurd (mem_locateVarfiles_unbatched.mpr ⟨hvf, hsn⟩) hc
          have hall : ∀ vn' ∈ varnames, artifactExistsFor artifacts vn' vf = true := by
            intro vn' hvn'
            cases hx : artifactExistsFor artifacts vn' vf
            · exact absurd (varfileStillNeeded_iff.mpr ⟨vn', hvn', hx⟩)
                (by rw [hsn]; exact Bool.false_ne_true)
            · rfl
          exact artifactExistsFor_exportPass (hall vn hvn)
      rw [hnone] at hex
      exact Bool.false_ne_true hex
    rw [locateVarfiles, if_neg Bool.false_ne_true, hneed]
    rfl
  refine ⟨hwrite, hempty, ?_⟩
  rw [hempty]
  rfl

theorem export_cycle_idempotent_witness :
    locateVarfiles
      (exportPass (fun _ => some ⟨[("rho", FieldVal.array [3, 4]), ("t", FieldVal.scalar 7)]⟩)
        ["rho", "t"]
        (locateVarfiles [] ["rho", "t"] ["VAR1", "VAR2"] false 0) [])
      ["rho", "t"] ["VAR1", "VAR2"] false 0 = [] :=
  (export_cycle_idempotent
    (fun _ => some ⟨[("rho", FieldVal.array [3, 4]), ("t", FieldVal.scalar 7)]⟩)
    [] ["rho", "t"] ["VAR1", "VAR2"]
    (fun vf _ => ⟨⟨[("rho", FieldVal.array [3, 4]), ("t", FieldVal.scalar 7)]⟩, rfl,
      by decide⟩)).2.1

/-! ### Deletion gating: the `core.py` implementation

These lemmas record that the cycle in `core.py` deletes exactly the
shards of successfully exported snapshots: a status-0 snapshot loses all
its shards, and a snapshot that never succeeds keeps every shard. -/

theorem mem_delete_original_snapshot {shards : List (String × String)} {vf : String}
    {p : String × String} :
    p ∈ delete_original_snapshot shards vf ↔ p ∈ shards ∧ p.snd ≠ vf := by
  simp [delete_original_snapshot, List.mem_filter]

theorem deleteOriginalsPhase_cons (r : Nat × String) (results : List (Nat × String))
    (shards : List (String × String)) :
    deleteOriginalsPhase true (r :: results) shards
      = deleteOriginalsPhase true results
          (if r.fst == 0 then delete_original_snapshot shards r.snd else shards) := rfl

theorem mem_of_mem_deleteOriginalsPhase {results : List (Nat × String)} :
    ∀ {shards : List (String × String)} {p : String × String},
      p ∈ deleteOriginalsPhase true results shards → p ∈ shards := by
  induction results with
  | nil => intro shards p h; exact h
  | cons r rest ih =>
    intro shards p h
    rw [deleteOriginalsPhase_cons] at h
    have := ih h
    by_cases h0 : r.fst == 0
    · rw [if_pos h0] at this
      exact (mem_delete_original_snapshot.mp this).1
    · rwa [if_neg h0] at this

/-- A snapshot whose export returned status 0 has all its shards
removed by the deletion phase of `core.py`. -/
theorem deleteOriginalsPhase_success_removes {results : List (Nat × String)} {vf : String}
    (h : (0, vf) ∈ results) :
    ∀ {shards : List (String × String)} {p : String × String},
      p ∈ deleteOriginalsPhase true results shards → p.snd ≠ vf := by
  induction results with
  | nil => cases h
  | cons r rest ih =>
    intro shards p hp
    rcases List.mem_cons.mp h with heq | hmem
    · subst heq
      rw [deleteOriginalsPhase_cons] at hp
      have hp' := mem_of_mem_deleteOriginalsPhase hp
      have hob : ((((0 : Nat), vf)).fst == 0) = true := rfl
      rw [if_pos hob] at hp'
      exact (mem_delete_original_snapshot.mp hp').2
    · rw [deleteOriginalsPhase_cons] at hp
      exact ih hmem hp

/-- A shard whose snapshot never produced a status-0 export survives the
deletion phase of `core.py` untouched. -/
theorem deleteOriginalsPhase_failure_preserves {results : List (Nat × String)} :
    ∀ {shards : List (String × String)} {p : String × String}, p ∈ shards →
      (∀ r ∈ results, r.fst = 0 → r.snd ≠ p.snd) →
      p ∈ deleteOriginalsPhase true results shards := by
  induction results with
  | nil => intro shards p hp _; exact hp
  | cons r rest ih =>
    intro shards p hp hgate
    rw [deleteOriginalsPhase_cons]
    apply ih _ (fun r' hr' => hgate r' (List.mem_cons_of_mem r hr'))
    by_cases h0 : r.fst == 0
    · rw [if_pos h0]
      exact mem_delete_original_snapshot.mpr
        ⟨hp, fun hsnd => hgate r (List.mem_cons_self r rest) (by simpa using h0) hsnd.symm⟩
    · rwa [if_neg h0]

/-- **C2.** Evaluation of the particle-snapshot loop of
`scripts/export_from_pencil_snapshot.py` at a failing input: with
`delete_originals=true`, the export of `PVAR1` succeeds (status 0), yet
both `proc*/PVAR1` shards survive the cycle while the unrelated
`proc0/VAR1` shard — the originals of a *different* snapshot — is
removed, because line 178 passes the stale loop variable `varfile`
instead of `pvarfile` to `delete_original_snapshot`.  This contradicts
the claim (and the spec scenario), which `core.py` lines 190-193
satisfy; the scripts variant is a copy-paste slip. -/
theorem scripts_stale_delete_on_pvar_success :
    (export_pencil (fun _ => some ⟨[("rhop", FieldVal.array [1])]⟩) ["rhop"] "PVAR1").status = 0
    ∧ scriptsPvarLoop (fun _ => some ⟨[("rhop", FieldVal.array [1])]⟩) ["rhop"] ["PVAR1"]
        "VAR1" true
        [("proc0", "PVAR1"), ("proc1", "PVAR1"), ("proc0", "VAR1")]
      = [("proc0", "PVAR1"), ("proc1", "PVAR1")] := by
  exact ⟨rfl, rfl⟩

/-! ### C4: behaviour of the config-reading daemon commands -/

theorem mem_startCheckLoop (running : String → Bool) :
    ∀ l : List String, ∀ e ∈ (startCheckLoop running l).fst,
      e = Eff.logOther ∨ ∃ j, e = Eff.qstat j ∨ e = Eff.removeMarker j := by
  intro l
  induction l with
  | nil => intro e h; cases h
  | cons j rest ih =>
    intro e h
    unfold startCheckLoop at h
    by_cases hr : running j
    · rw [if_pos hr] at h
      rcases List.mem_cons.mp h with h1 | h1
      · exact Or.inr ⟨j, Or.inl h1⟩
      rcases List.mem_cons.mp h1 with h2 | h2
      · exact Or.inl h2
      · exact ih e h2
    · rw [if_neg hr] at h
      rcases List.mem_cons.mp h with h1 | h1
      · exact Or.inr ⟨j, Or.inl h1⟩
      rcases List.mem_cons.mp h1 with h2 | h2
      · exact Or.inr ⟨j, Or.inr h2⟩
      · exact ih e h2

theorem mem_inspectLoop (running : String → Bool) :
    ∀ l : List String, ∀ e ∈ inspectLoop running l,
      e = Eff.logOther ∨ ∃ j, e = Eff.qstat j ∨ e = Eff.removeMarker j := by
  intro l
  induction l with
  | nil => intro e h; cases h
  | cons j rest ih =>
    intro e h
    unfold inspectLoop at h
    rcases List.mem_append.mp h with h1 | h1
    · by_cases hr : running j
      · rw [if_pos hr] at h1
        rcases List.mem_cons.mp h1 with h2 | h2
        · exact Or.inr ⟨j, Or.inl h2⟩
        rcases List.mem_cons.mp h2 with h3 | h3
        · exact Or.inl h3
        · cases h3
      · rw [if_neg hr] at h1
        rcases List.mem_cons.mp h1 with h2 | h2
        · exact Or.inr ⟨j, Or.inl h2⟩
        rcases List.mem_cons.mp h2 with h3 | h3
        · exact Or.inl h3
        rcases List.mem_cons.mp h3 with h4 | h4
        · exact Or.inr ⟨j, Or.inr h4⟩
        · cases h4
    · exact ih e h1

/-- **C4 (counterexample).** With a corrupt configuration file,
`stop_daemon` logs the load error but does *not* abort: it proceeds to
the active-marker loop and, here, deletes the queued job `123` — a job
deletion performed despite the corrupt configuration, contradicting the
claim. -/
theorem corrupt_config_stop_still_deletes_job :
    Eff.qdel "123" ∈
      stop_daemon ConfigRead.corrupt ["123"] (fun _ => true) (fun _ => true) := by
  decide

/-- **C4 (amended).** A missing configuration file aborts each of the
four commands with only the log message.  A corrupt configuration file
is logged in each; `modify` aborts immediately; `start` performs no
scheduler submission, script write, or configuration write (the
never-assigned `config_data` stops it before submission); `inspect`
performs no submission, job deletion, or configuration write; but `stop`
proceeds with its reconciliation loop and may still delete jobs. -/
theorem corrupt_or_missing_config_commands
    (activeJobs : List String) (running qdelOk : String → Bool) (qsubResult : Option String) :
    (modify_daemon ConfigRead.missing activeJobs running = [Eff.logMissingConfig])
    ∧ (modify_daemon ConfigRead.corrupt activeJobs running = [Eff.logLoadError])
    ∧ (start_daemon ConfigRead.missing activeJobs running qsubResult = [Eff.logMissingConfig])
    ∧ (Eff.logLoadError ∈ start_daemon ConfigRead.corrupt activeJobs running qsubResult)
    ∧ (Eff.qsub ∉ start_daemon ConfigRead.corrupt activeJobs running qsubResult)
    ∧ (Eff.writeScript ∉ start_daemon ConfigRead.corrupt activeJobs running qsubResult)
    ∧ (Eff.writeConfig ∉ start_daemon ConfigRead.corrupt activeJobs running qsubResult)
    ∧ (stop_daemon ConfigRead.missing activeJobs running qdelOk = [Eff.logMissingConfig])
    ∧ (Eff.logLoadError ∈ stop_daemon ConfigRead.corrupt activeJobs running qdelOk)
    ∧ (inspect_daemon ConfigRead.missing activeJobs running = [Eff.logMissingConfig])
    ∧ (Eff.logLoadError ∈ inspect_daemon ConfigRead.corrupt activeJobs running)
    ∧ (∀ j, Eff.qdel j ∉ inspect_daemon ConfigRead.corrupt activeJobs running)
    ∧ (Eff.qsub ∉ inspect_daemon ConfigRead.corrupt activeJobs running)
    ∧ (Eff.writeConfig ∉ inspect_daemon ConfigRead.corrupt activeJobs running) := by
  have hstart : ∀ e, e ∈ start_daemon ConfigRead.corrupt activeJobs running qsubResult →
      e = Eff.logLoadError ∨ e = Eff.logOther ∨ ∃ j, e = Eff.qstat j ∨ e = Eff.removeMarker j := by
    intro e h
    unfold start_daemon at h
    by_cases hs : (startCheckLoop running activeJobs).snd
    · rw [if_pos hs] at h
      rcases List.mem_cons.mp h with h1 | h1
      · exact Or.inl h1
      rcases List.mem_append.mp h1 with h2 | h2
      · exact Or.inr ((mem_startCheckLoop running activeJobs e h2).imp_right id)
      · rcases List.mem_singleton.mp h2 with h3
        exact Or.inr (Or.inl h3)
    · rw [if_neg hs] at h
      rcases List.mem_cons.mp h with h1 | h1
      · exact Or.inl h1
      · exact Or.inr ((mem_startCheckLoop running activeJobs e h1).imp_right id)
  have hinspect : ∀ e, e ∈ inspect_daemon ConfigRead.corrupt activeJobs running →
      e = Eff.logLoadError ∨ e = Eff.logOther ∨ ∃ j, e = Eff.qstat j ∨ e = Eff.removeMarker j := by
    intro e h
    unfold inspect_daemon at h
    rcases List.mem_cons.mp h with h1 | h1
    · exact Or.inl h1
    · exact Or.inr ((mem_inspectLoop running activeJobs e h1).imp_right id)
  refine ⟨rfl, rfl, rfl, ?_, ?_, ?_, ?_, rfl, List.mem_cons_self _ _, rfl,
    List.mem_cons_self _ _, ?_, ?_, ?_⟩
  · show Eff.logLoadError ∈
      (if (startCheckLoop running activeJobs).snd then
        Eff.logLoadError :: (startCheckLoop running activeJobs).fst ++ [Eff.logOther]
       else Eff.logLoadError :: (startCheckLoop running activeJobs).fst)
    split
    · exact List.mem_cons_self _ _
    · exact List.mem_cons_self _ _
  · intro h
    rcases hstart _ h with h1 | h1 | ⟨j, h1 | h1⟩ <;> cases h1
  · intro h
    rcases hstart _ h with h1 | h1 | ⟨j, h1 | h1⟩ <;> cases h1
  · intro h
    rcases hstart _ h with h1 | h1 | ⟨j, h1 | h1⟩ <;> cases h1
  · intro j h
    rcases hinspect _ h with h1 | h1 | ⟨j', h1 | h1⟩ <;> cases h1
  · intro h
    rcases hinspect _ h with h1 | h1 | ⟨j, h1 | h1⟩ <;> cases h1
  · intro h
    rcases hinspect _ h with h1 | h1 | ⟨j, h1 | h1⟩ <;> cases h1

/-- **C9.** A daemon `setup` that finds an existing configuration for
the name and is not given `--force` leaves every stored configuration
document unmodified (in particular this daemon's) and emits the
override warning. -/
theorem setup_without_force_preserves_config (st : RegistryState)
    (name contents c : String) (writeOk : Bool)
    (hex : st.configs.lookup name = some c) :
    (setup_daemon st name false contents writeOk).fst.configs = st.configs
    ∧ (setup_daemon st name false contents writeOk).fst.configs.lookup name = some c
    ∧ ("Existing configuration file found for daemon " ++ name ++
        ". Rerun with flag --force to override existing configuration.")
      ∈ (setup_daemon st name false contents writeOk).snd := by
  unfold setup_daemon
  rw [if_pos (by rw [hex]; rfl)]
  exact ⟨rfl, by rw [hex], List.mem_singleton.mpr rfl⟩

theorem setup_without_force_preserves_config_witness :
    (setup_daemon ⟨true, ["d1"], [("d1", "old")]⟩ "d1" false "new" true).fst.configs
      = [("d1", "old")] :=
  (setup_without_force_preserves_config ⟨true, ["d1"], [("d1", "old")]⟩ "d1" "new" "old" true
    rfl).1

/-- **C10.** `setup_daemon` creates the per-daemon directory before the
existing-configuration check, so every setup invocation — including one
refused for lack of `--force` and one whose configuration write fails —
leaves a daemon directory behind, and `list_daemons` subsequently
reports the name as an existing daemon. -/
theorem setup_always_creates_daemon_dir (st : RegistryState)
    (name contents : String) (force writeOk : Bool) :
    name ∈ (setup_daemon st name force contents writeOk).fst.daemonDirs
    ∧ name ∈ list_daemons (setup_daemon st name force contents writeOk).fst := by
  have hdirs : (setup_daemon st name force contents writeOk).fst.daemonDirs
      = (if name ∈ st.daemonDirs then st.daemonDirs else st.daemonDirs ++ [name]) := by
    simp only [setup_daemon]
    split
    · rfl
    · split <;> rfl
  have hexists : (setup_daemon st name force contents writeOk).fst.configDirExists = true := by
    simp only [setup_daemon]
    split
    · rfl
    · split <;> rfl
  have hmem : name ∈ (setup_daemon st name force contents writeOk).fst.daemonDirs := by
    rw [hdirs]
    split
    · assumption
    · exact List.mem_append_right _ (List.mem_singleton.mpr rfl)
  refine ⟨hmem, ?_⟩
  rw [list_daemons, if_pos hexists]
  exact hmem

end PySnapCollate
